import Mathlib

/-!
# Verification of the tool-calling orchestration loop (`backend/ai_generator.py`)

This file shallowly embeds the orchestration core of the RAG chatbot backend:
the `AIGenerator` class of `backend/ai_generator.py` (text extraction, the
sequential tool-calling loop `_handle_tool_execution`, round-by-round tool
dispatch `_execute_tools_for_round`, the intermediate/final API-call parameter
construction, `generate_response`, `test_connection`) together with the
`MAX_TOOL_ROUNDS` field of `backend/config.py`.

Modelling decisions:
* A model response (`ModelResponse`) carries a stop reason and an ordered list
  of content blocks, each either a text block or a tool-use block, matching the
  Anthropic response shape the code manipulates.
* The language-model client is embedded as a function `Nat → ModelResponse`
  giving the response to the n-th API call of a run (the code's client is a
  network object; per run it is observationally a sequence of responses, which
  is exactly how the repository's own tests script it with `side_effect`).
* The tool manager is a function from tool name and keyword arguments to
  `Except String String`: `.error m` embeds `execute_tool` raising an exception
  whose message is `m`, `.ok r` a normal return of `r`.
* Run results carry ghost observation fields (`calls`, `dispatches`,
  `round_trace`, `messages`, `budget`) recording the API calls made with their
  parameters, the `execute_tool` invocations performed, the successive values
  of `state.current_round`, the final conversation history, and the
  `max_rounds` the orchestrator was entered with.  These record exactly the
  observables the claims speak about; they do not influence control flow.
-/

/-- A content block of a model response: either a text block (has a `.text`
attribute) or a tool-use block (`type == "tool_use"`, with `id`, `name`,
`input`).  `input` is the keyword-argument mapping, embedded as an association
list. -/
inductive ContentBlock where
  | text (text : String)
  | toolUse (id : String) (name : String) (input : List (String × String))
  deriving DecidableEq, Repr

/-- A model response: `stop_reason` and the ordered `content` block list. -/
structure ModelResponse where
  stop_reason : String
  content : List ContentBlock
  deriving DecidableEq, Repr

/-- A tool result dict `{"type": "tool_result", "tool_use_id": ..., "content": ...}`
as built in `_execute_tools_for_round`. -/
structure ToolResult where
  tool_use_id : String
  content : String
  deriving DecidableEq, Repr

/-- The content payload of a conversation message: the initial user message is
plain text, the appended assistant message carries the response's content
blocks, and the appended user message carries the round's tool results. -/
inductive MessageContent where
  | text (s : String)
  | blocks (bs : List ContentBlock)
  | toolResults (rs : List ToolResult)
  deriving DecidableEq, Repr

/-- One conversation message `{"role": ..., "content": ...}`. -/
structure Message where
  role : String
  content : MessageContent
  deriving DecidableEq, Repr

/-- A tool schema as exposed to the model (opaque to the orchestrator). -/
structure ToolSchema where
  name : String
  description : String
  deriving DecidableEq, Repr

/-- The keyword arguments of one `tool_manager.execute_tool` invocation,
paired with the tool name. -/
abbrev Dispatch := String × List (String × String)

/-- The parameters of one `client.messages.create(**api_params)` call:
`base_params` (`model`, `temperature`, `max_tokens`) plus `messages`,
`system`, and the optional `tools` / `tool_choice` entries. -/
structure ApiParams where
  model : String
  temperature : Nat
  max_tokens : Nat
  messages : List Message
  system : String
  tools : Option (List ToolSchema) := none
  tool_choice : Option String := none
  deriving DecidableEq, Repr

/-- The tool manager collaborator: `get_tool_definitions` and `execute_tool`
(where `.error m` embeds a raised exception with message `m`). -/
structure ToolManager where
  get_tool_definitions : List ToolSchema
  execute_tool : String → List (String × String) → Except String String

/-- The `AIGenerator` object: its `model` string and its client, embedded as
the sequence of responses the API returns on this run (`client n` answers the
n-th `messages.create` call, counting from 0). -/
structure AIGenerator where
  model : String
  client : Nat → ModelResponse

/-- `_ToolCallingState`: internal state for the sequential tool calling loop. -/
structure ToolCallingState where
  messages : List Message
  current_round : Nat
  max_rounds : Nat
  last_response : ModelResponse

/-- The observable outcome of a run: the returned answer string plus ghost
observations (API calls made with their parameters, tool dispatches performed,
the trace of `current_round` values, the final conversation message list, and
the `max_rounds` budget the orchestrator ran with — `none` when the
orchestration loop was never entered). -/
structure GenResult where
  answer : String
  calls : List ApiParams
  dispatches : List Dispatch
  round_trace : List Nat
  messages : List Message
  budget : Option Nat
  deriving DecidableEq, Repr

namespace AIGenerator

/-- The static system prompt `AIGenerator.SYSTEM_PROMPT`, verbatim (opaque
text to the orchestrator; the claims depend only on its verbatim reuse). -/
def SYSTEM_PROMPT : String :=
" You are an AI assistant specialized in course materials and educational content with access to a comprehensive search tool for course information.\n\nSearch Tool Usage:\n- Use the search tool for questions about specific course content or detailed educational materials\n- You may make up to 2 sequential tool calls per query if needed\n- Synthesize search results into accurate, fact-based responses\n- If search yields no results, state this clearly without offering alternatives\n\nCourse Outline Tool Usage:\n- Use the course outline tool for questions about course structure, topics covered, lesson lists, or syllabus information\n- Examples: \"what topics are covered in X\", \"show me the outline of Y\", \"what lessons are in this course\"\n- You may combine tools: first get outline, then search specific lessons\n\nResponse Protocol:\n- **General knowledge questions**: Answer using existing knowledge without searching\n- **Course-specific questions**: Search first, then answer\n- **No meta-commentary**:\n - Provide direct answers only â€” no reasoning process, search explanations, or question-type analysis\n - Do not mention \"based on the search results\"\n\n\nAll responses must be:\n1. **Brief, Concise and focused** - Get to the point quickly\n2. **Educational** - Maintain instructional value\n3. **Clear** - Use accessible language\n4. **Example-supported** - Include relevant examples when they aid understanding\nProvide only the direct answer to what was asked.\n"

/-- `self.base_params = {"model": self.model, "temperature": 0, "max_tokens": 800}`,
spread into concrete `ApiParams` together with the per-call entries. -/
def mk_base_params (g : AIGenerator) (messages : List Message) (system : String)
    (tools : Option (List ToolSchema)) (tool_choice : Option String) : ApiParams :=
  { model := g.model, temperature := 0, max_tokens := 800,
    messages := messages, system := system, tools := tools, tool_choice := tool_choice }

/-- `test_connection`: wraps one client call in try/except and returns
`(success, message)`; the argument is the outcome of the underlying
`messages.create` call (`.error m` embeds a raised exception with message
`m`).  Totality of this function embeds "never propagates an exception". -/
def test_connection (call_outcome : Except String ModelResponse) : Bool × String :=
  match call_outcome with
  | .ok _ => (true, "Connection successful")
  | .error e => (false, "Connection failed: " ++ e)

/-- `_extract_text_from_response`: collect `block.text` of every block having
a `text` attribute (exactly the text blocks), return `""` when there are none,
else the concatenation. -/
def extract_text_from_response (response : ModelResponse) : String :=
  let text_parts := response.content.filterMap fun block =>
    match block with
    | .text t => some t
    | .toolUse _ _ _ => none
  if text_parts.isEmpty then "" else String.join text_parts

/-- `_has_tool_use_blocks`: `any(block.type == "tool_use" for block in response.content)`. -/
def has_tool_use_blocks (response : ModelResponse) : Bool :=
  response.content.any fun block =>
    match block with
    | .toolUse _ _ _ => true
    | .text _ => false

/-- `_handle_tool_error`: the user-facing error string. -/
def handle_tool_error (error_message : String) : String :=
  "I encountered an error while searching: " ++ error_message

/-- `_init_tool_calling_state`: copy `base_params["messages"]`, start at
round 0 with the initial response. -/
def init_tool_calling_state (initial_response : ModelResponse)
    (base_params : ApiParams) (max_rounds : Nat) : ToolCallingState :=
  { messages := base_params.messages, current_round := 0,
    max_rounds := max_rounds, last_response := initial_response }

/-- The `for content_block in state.last_response.content` loop of
`_execute_tools_for_round`: dispatch each tool-use block in order; on the
first dispatch that raises, stop with the error string
`"Tool execution failed: " ++ message` (no later block is dispatched).
Returns the tool results in block order together with the list of
`execute_tool` invocations performed (the raising invocation included). -/
def run_tool_blocks (tm : ToolManager) :
    List ContentBlock → Except (String × List Dispatch) (List ToolResult × List Dispatch)
  | [] => .ok ([], [])
  | .text _ :: rest => run_tool_blocks tm rest
  | .toolUse id name input :: rest =>
    match tm.execute_tool name input with
    | .ok tool_result =>
      match run_tool_blocks tm rest with
      | .ok (results, ds) =>
        .ok ({ tool_use_id := id, content := tool_result } :: results, (name, input) :: ds)
      | .error (e, ds) => .error (e, (name, input) :: ds)
    | .error e => .error ("Tool execution failed: " ++ e, [(name, input)])

/-- The result dict of `_execute_tools_for_round`, with the ghost `dispatched`
list of `execute_tool` invocations made. -/
structure ExecResult where
  error : Option String
  tool_messages : List Message
  dispatched : List Dispatch
  deriving DecidableEq, Repr

/-- `_execute_tools_for_round`: build the assistant message from the current
response's content, dispatch every tool-use block in order, and either report
the first failure (with empty `tool_messages`) or return the assistant message
followed — when at least one tool ran — by the user message holding the tool
results. -/
def execute_tools_for_round (tm : ToolManager) (state : ToolCallingState) : ExecResult :=
  let assistant_message : Message :=
    { role := "assistant", content := .blocks state.last_response.content }
  match run_tool_blocks tm state.last_response.content with
  | .error (e, ds) => { error := some e, tool_messages := [], dispatched := ds }
  | .ok (tool_results, ds) =>
    { error := none,
      tool_messages :=
        if tool_results.isEmpty then [assistant_message]
        else [assistant_message, { role := "user", content := .toolResults tool_results }],
      dispatched := ds }

/-- `_make_intermediate_api_call` parameters: accumulated messages, the
original system content, the registry's schema list, automatic tool choice. -/
def make_intermediate_params (g : AIGenerator) (state_messages : List Message)
    (base_params : ApiParams) (tm : ToolManager) : ApiParams :=
  mk_base_params g state_messages base_params.system
    (some tm.get_tool_definitions) (some "auto")

/-- `_make_final_api_call` parameters: accumulated messages and the original
system content, with NO `tools` and NO `tool_choice` entries. -/
def make_final_params (g : AIGenerator) (state_messages : List Message)
    (base_params : ApiParams) : ApiParams :=
  mk_base_params g state_messages base_params.system none none

/-- The `while state.current_round < state.max_rounds` loop of
`_handle_tool_execution`.  `ncalls` is the number of client calls already made
in this run (so the next response is `g.client ncalls`).  Each return point of
the Python body is one branch; the trailing "should not reach here" return is
the `else` of the outer `if`. -/
def tool_calling_loop (g : AIGenerator) (base_params : ApiParams) (tm : ToolManager)
    (state : ToolCallingState) (ncalls : Nat) : GenResult :=
  if state.current_round < state.max_rounds then
    if has_tool_use_blocks state.last_response = false then
      { answer := extract_text_from_response state.last_response,
        calls := [], dispatches := [], round_trace := [state.current_round],
        messages := state.messages, budget := none }
    else
      let execution_result := execute_tools_for_round tm state
      match execution_result.error with
      | some e =>
        { answer := handle_tool_error e,
          calls := [], dispatches := execution_result.dispatched,
          round_trace := [state.current_round],
          messages := state.messages, budget := none }
      | none =>
        let messages' := state.messages ++ execution_result.tool_messages
        let round' := state.current_round + 1
        if round' ≥ state.max_rounds then
          let final_params := make_final_params g messages' base_params
          let final_response := g.client ncalls
          { answer := extract_text_from_response final_response,
            calls := [final_params], dispatches := execution_result.dispatched,
            round_trace := [state.current_round, round'],
            messages := messages', budget := none }
        else
          let inter_params := make_intermediate_params g messages' base_params tm
          let next_response := g.client ncalls
          let rec_result := tool_calling_loop g base_params tm
            { messages := messages', current_round := round',
              max_rounds := state.max_rounds, last_response := next_response }
            (ncalls + 1)
          { answer := rec_result.answer,
            calls := inter_params :: rec_result.calls,
            dispatches := execution_result.dispatched ++ rec_result.dispatches,
            round_trace := state.current_round :: rec_result.round_trace,
            messages := rec_result.messages, budget := none }
  else
    { answer := extract_text_from_response state.last_response,
      calls := [], dispatches := [], round_trace := [state.current_round],
      messages := state.messages, budget := none }
termination_by state.max_rounds - state.current_round
decreasing_by omega

/-- `_handle_tool_execution`: build the starting state and run the loop.
`ncalls` counts the client calls already made (the front door's initial call).
The returned `budget` records the `max_rounds` this orchestration ran with. -/
def handle_tool_execution (g : AIGenerator) (initial_response : ModelResponse)
    (base_params : ApiParams) (tm : ToolManager) (ncalls : Nat)
    (max_rounds : Nat := 2) : GenResult :=
  let state := init_tool_calling_state initial_response base_params max_rounds
  let r := tool_calling_loop g base_params tm state ncalls
  { r with budget := some max_rounds }

/-- The system-content construction of `generate_response`:
`f"{self.SYSTEM_PROMPT}\n\nPrevious conversation:\n{conversation_history}" if conversation_history else self.SYSTEM_PROMPT`
(Python truthiness: `None` and `""` both take the `else` branch). -/
def build_system_content (conversation_history : Option String) : String :=
  match conversation_history with
  | some h =>
    if h = "" then SYSTEM_PROMPT
    else SYSTEM_PROMPT ++ "\n\nPrevious conversation:\n" ++ h
  | none => SYSTEM_PROMPT

/-- Python truthiness of the `tools` argument: `None` and `[]` are falsy. -/
def tools_truthy (tools : Option (List ToolSchema)) : Bool :=
  match tools with
  | none => false
  | some ts => !ts.isEmpty

/-- `generate_response`: build the system content and the first call's
parameters (adding `tools`/`tool_choice` only when `tools` is truthy), make
the first client call, and either delegate to `_handle_tool_execution` (when
the stop reason is `"tool_use"` and a tool manager was given, passing NO
`max_rounds` argument so the default 2 applies) or extract and return the
text directly. -/
def generate_response (g : AIGenerator) (query : String)
    (conversation_history : Option String := none)
    (tools : Option (List ToolSchema) := none)
    (tool_manager : Option ToolManager := none) : GenResult :=
  let system_content := build_system_content conversation_history
  let first_messages : List Message := [{ role := "user", content := .text query }]
  let api_params :=
    if tools_truthy tools then
      mk_base_params g first_messages system_content tools (some "auto")
    else
      mk_base_params g first_messages system_content none none
  let response := g.client 0
  match tool_manager with
  | some tm =>
    if response.stop_reason = "tool_use" then
      let r := handle_tool_execution g response api_params tm 1
      { r with calls := api_params :: r.calls }
    else
      { answer := extract_text_from_response response, calls := [api_params],
        dispatches := [], round_trace := [], messages := api_params.messages,
        budget := none }
  | none =>
    { answer := extract_text_from_response response, calls := [api_params],
      dispatches := [], round_trace := [], messages := api_params.messages,
      budget := none }

/-! ### Observation helpers

Small projections over block lists, used to state the claims (the text
payloads of the text blocks, the identifiers and dispatches of the tool-use
blocks, each in block order). -/

/-- The text payloads of the text blocks of a block list, in order. -/
def text_payloads (bs : List ContentBlock) : List String :=
  bs.filterMap fun b =>
    match b with
    | .text t => some t
    | .toolUse _ _ _ => none

/-- The identifiers of the tool-use blocks of a block list, in order. -/
def tool_use_ids (bs : List ContentBlock) : List String :=
  bs.filterMap fun b =>
    match b with
    | .toolUse i _ _ => some i
    | .text _ => none

/-- The `(name, input)` pair of each tool-use block of a block list, in order. -/
def tool_dispatches (bs : List ContentBlock) : List Dispatch :=
  bs.filterMap fun b =>
    match b with
    | .toolUse _ n a => some (n, a)
    | .text _ => none

/-- Whether a block is a tool-use block (`block.type == "tool_use"`). -/
def is_tool_use (b : ContentBlock) : Bool :=
  match b with
  | .toolUse _ _ _ => true
  | .text _ => false

/-- The number of consecutive responses, starting at call index `j` and
counted while the index stays below `m`, in which the model requests tool use:
this is `min(rounds_needed - j, m - j)` for a model that keeps requesting
tools for `rounds_needed` calls before answering. -/
def consecutive_tool_rounds (client : Nat → ModelResponse) (j m : Nat) : Nat :=
  if j < m then
    if has_tool_use_blocks (client j) then consecutive_tool_rounds client (j + 1) m + 1
    else 0
  else 0
termination_by m - j
decreasing_by omega

end AIGenerator

/-- `backend/config.py`: the `Config` dataclass field relevant here.
`MAX_TOOL_ROUNDS = int(os.getenv("MAX_TOOL_ROUNDS", "2"))` — its value is
whatever the environment supplies, so it is embedded as an arbitrary field. -/
structure Config where
  MAX_TOOL_ROUNDS : Nat
  deriving DecidableEq, Repr

/-! ### Concrete instances

Small concrete clients and tool managers used to evaluate the definitions on
closed inputs (mirroring the mock objects of the repository's own test
suite). -/

namespace Example

/-- A schema like the search tool's. -/
def schema : ToolSchema :=
  { name := "search_course_content", description := "Search course materials" }

/-- A response carrying one text block. -/
def respText (s : String) : ModelResponse :=
  { stop_reason := "end_turn", content := [.text s] }

/-- A response requesting one tool invocation. -/
def respTool : ModelResponse :=
  { stop_reason := "tool_use",
    content := [.toolUse "toolu_1" "search_course_content" [("query", "x")]] }

/-- A client that requests tool use on its first `k` calls and then answers
with plain text. -/
def genK (k : Nat) : AIGenerator :=
  { model := "test-model",
    client := fun n => if n < k then respTool else respText "final answer" }

/-- A tool manager whose dispatches always succeed. -/
def tmOk : ToolManager :=
  { get_tool_definitions := [schema], execute_tool := fun _ _ => .ok "Result" }

/-- A tool manager whose dispatches always raise, with message `"boom"`. -/
def tmBoom : ToolManager :=
  { get_tool_definitions := [schema], execute_tool := fun _ _ => .error "boom" }

/-- A fixed parameter record standing for the front door's first-call
parameters when exercising the loop directly. -/
def pInit : ApiParams :=
  { model := "test-model", temperature := 0, max_tokens := 800,
    messages := [{ role := "user", content := .text "q" }], system := "sys" }

/-- A response requesting two tool invocations around a text block. -/
def respTwoTools : ModelResponse :=
  { stop_reason := "tool_use",
    content := [.toolUse "toolu_1" "search_course_content" [("query", "x")],
      .text "thinking",
      .toolUse "toolu_2" "get_course_outline" [("course_title", "y")]] }

/-- A loop state entering round 0 on `respTwoTools`. -/
def stateW : ToolCallingState :=
  { messages := [], current_round := 0, max_rounds := 2, last_response := respTwoTools }

/-- The tool results `tmOk` produces for `respTwoTools`. -/
def resultsW : List ToolResult :=
  [{ tool_use_id := "toolu_1", content := "Result" },
   { tool_use_id := "toolu_2", content := "Result" }]

end Example

namespace AIGenerator

theorem extract_text_eq_join (resp : ModelResponse) :
    extract_text_from_response resp = String.join (text_payloads resp.content) := by
  cases h : resp.content.filterMap (fun b =>
      match b with
      | ContentBlock.text t => some t
      | ContentBlock.toolUse _ _ _ => none) with
  | nil => simp [extract_text_from_response, text_payloads, h]; rfl
  | cons x xs => simp [extract_text_from_response, text_payloads, h]

theorem run_tool_blocks_isOk (tm : ToolManager)
    (hok : ∀ n a, (tm.execute_tool n a).isOk = true) :
    ∀ bs : List ContentBlock, ∃ results ds, run_tool_blocks tm bs = .ok (results, ds) := by
  intro bs
  induction bs with
  | nil => exact ⟨[], [], rfl⟩
  | cons b rest ih =>
    obtain ⟨results, ds, hrest⟩ := ih
    cases b with
    | text t => exact ⟨results, ds, by simpa [run_tool_blocks] using hrest⟩
    | toolUse id name input =>
      have h := hok name input
      cases hcall : tm.execute_tool name input with
      | error e => rw [hcall] at h; simp [Except.isOk, Except.toBool] at h
      | ok r =>
        refine ⟨{ tool_use_id := id, content := r } :: results, (name, input) :: ds, ?_⟩
        simp [run_tool_blocks, hcall, hrest]

theorem run_tool_blocks_ok_spec (tm : ToolManager) :
    ∀ (bs : List ContentBlock) (results : List ToolResult) (ds : List Dispatch),
      run_tool_blocks tm bs = .ok (results, ds) →
      results.map ToolResult.tool_use_id = tool_use_ids bs ∧ ds = tool_dispatches bs := by
  intro bs
  induction bs with
  | nil =>
    intro results ds h
    simp [run_tool_blocks] at h
    simp [h.1, h.2, tool_use_ids, tool_dispatches]
  | cons b rest ih =>
    intro results ds h
    cases b with
    | text t =>
      simp only [run_tool_blocks] at h
      simpa [tool_use_ids, tool_dispatches] using ih results ds h
    | toolUse id name input =>
      simp only [run_tool_blocks] at h
      cases hcall : tm.execute_tool name input with
      | error e => rw [hcall] at h; simp at h
      | ok r =>
        rw [hcall] at h
        cases hrest : run_tool_blocks tm rest with
        | error p => rw [hrest] at h; simp at h
        | ok p =>
          obtain ⟨results', ds'⟩ := p
          rw [hrest] at h
          simp at h
          obtain ⟨hr, hd⟩ := h
          obtain ⟨h1, h2⟩ := ih results' ds' hrest
          subst hr hd
          simp only [tool_use_ids, tool_dispatches, List.filterMap_cons, List.map_cons] at h1 h2 ⊢
          exact ⟨by rw [h1], by rw [h2]⟩


theorem run_tool_blocks_error_at (tm : ToolManager) :
    ∀ (L₁ : List ContentBlock) (id name : String) (input : List (String × String))
      (msg : String) (L₂ : List ContentBlock),
      (∀ n a, (n, a) ∈ tool_dispatches L₁ → (tm.execute_tool n a).isOk = true) →
      tm.execute_tool name input = .error msg →
      run_tool_blocks tm (L₁ ++ ContentBlock.toolUse id name input :: L₂)
        = .error ("Tool execution failed: " ++ msg, tool_dispatches L₁ ++ [(name, input)]) := by
  intro L₁
  induction L₁ with
  | nil =>
    intro id name input msg L₂ _ hfail
    simp [run_tool_blocks, hfail, tool_dispatches]
  | cons b rest ih =>
    intro id name input msg L₂ hok hfail
    cases b with
    | text t =>
      simp only [List.cons_append, run_tool_blocks]
      have hok' : ∀ n a, (n, a) ∈ tool_dispatches rest → (tm.execute_tool n a).isOk = true := by
        intro n a hmem
        exact hok n a (by simp [tool_dispatches, List.filterMap_cons] at hmem ⊢; exact hmem)
      rw [List.append_eq, ih id name input msg L₂ hok' hfail]
      simp [tool_dispatches, List.filterMap_cons]
    | toolUse i n a =>
      have hmem : (n, a) ∈ tool_dispatches (ContentBlock.toolUse i n a :: rest) := by
        simp [tool_dispatches, List.filterMap_cons]
      have hisok := hok n a hmem
      cases hcall : tm.execute_tool n a with
      | error e => rw [hcall] at hisok; simp [Except.isOk, Except.toBool] at hisok
      | ok r =>
        simp only [List.cons_append, run_tool_blocks, hcall]
        have hok' : ∀ n' a', (n', a') ∈ tool_dispatches rest → (tm.execute_tool n' a').isOk = true := by
          intro n' a' hmem'
          exact hok n' a' (by simp [tool_dispatches, List.filterMap_cons]; right; simp [tool_dispatches] at hmem'; exact hmem')
        rw [List.append_eq, ih id name input msg L₂ hok' hfail]
        simp [tool_dispatches, List.filterMap_cons]

theorem has_tool_use_of_mem {bs : List ContentBlock} {stop : String}
    (i n : String) (a : List (String × String))
    (hmem : ContentBlock.toolUse i n a ∈ bs) :
    has_tool_use_blocks { stop_reason := stop, content := bs } = true := by
  simp only [has_tool_use_blocks, List.any_eq_true]
  exact ⟨ContentBlock.toolUse i n a, hmem, rfl⟩

theorem tool_use_ids_ne_nil_of_has (resp : ModelResponse)
    (h : has_tool_use_blocks resp = true) : tool_use_ids resp.content ≠ [] := by
  simp only [has_tool_use_blocks, List.any_eq_true] at h
  obtain ⟨b, hmem, hb⟩ := h
  cases b with
  | text t => simp at hb
  | toolUse i n a =>
    intro hnil
    have hi : i ∈ tool_use_ids resp.content := by
      simp only [tool_use_ids]
      exact List.mem_filterMap.mpr ⟨ContentBlock.toolUse i n a, hmem, rfl⟩
    rw [hnil] at hi
    simp at hi

theorem execute_tools_error_none (tm : ToolManager) (state : ToolCallingState)
    (hok : ∀ n a, (tm.execute_tool n a).isOk = true) :
    (execute_tools_for_round tm state).error = none := by
  obtain ⟨results, ds, h⟩ := run_tool_blocks_isOk tm hok state.last_response.content
  simp [execute_tools_for_round, h]


/-- Normalize the functional-induction hypothesis `¬ has = false` to `has = true`. -/
theorem has_tool_true_of_not_false {resp : ModelResponse}
    (h : ¬has_tool_use_blocks resp = false) : has_tool_use_blocks resp = true := by
  cases hb : has_tool_use_blocks resp
  · exact absurd hb h
  · rfl

theorem tool_calling_loop_system (g : AIGenerator) (bp : ApiParams) (tm : ToolManager)
    (state : ToolCallingState) (ncalls : Nat) :
    ∀ p ∈ (tool_calling_loop g bp tm state ncalls).calls, p.system = bp.system := by
  induction state, ncalls using tool_calling_loop.induct g bp tm with
  | case1 state ncalls hlt hno =>
    rw [tool_calling_loop]
    simp [hlt, hno]
  | case2 state ncalls hlt hno er e herr =>
    have herr' : (execute_tools_for_round tm state).error = some e := herr
    rw [tool_calling_loop]
    simp [hlt, has_tool_true_of_not_false hno, herr']
  | case3 state ncalls hlt hno er herr round hge =>
    have herr' : (execute_tools_for_round tm state).error = none := herr
    have hge' : state.max_rounds ≤ state.current_round + 1 := hge
    rw [tool_calling_loop]
    simp [hlt, has_tool_true_of_not_false hno, herr', if_pos hge', make_final_params,
      mk_base_params]
  | case4 state ncalls hlt hno er herr msgs round hge resp ih =>
    have herr' : (execute_tools_for_round tm state).error = none := herr
    have hge' : ¬state.max_rounds ≤ state.current_round + 1 := hge
    rw [tool_calling_loop]
    simp only [if_pos hlt, has_tool_true_of_not_false hno, Bool.true_eq_false, if_false, herr',
      if_neg hge', List.mem_cons]
    intro p hp
    rcases hp with h | h
    · subst h
      simp [make_intermediate_params, mk_base_params]
    · exact ih p h
  | case5 state ncalls hge =>
    rw [tool_calling_loop]
    simp [hge]


/-- The `current_round` trace of the loop: it starts at the entry round, is
non-decreasing, and — when the entry round is within the budget — stays
bounded by `max_rounds`. -/
theorem tool_calling_loop_trace (g : AIGenerator) (bp : ApiParams) (tm : ToolManager)
    (state : ToolCallingState) (ncalls : Nat) :
    (tool_calling_loop g bp tm state ncalls).round_trace.head? = some state.current_round
    ∧ List.Chain' (· ≤ ·) (tool_calling_loop g bp tm state ncalls).round_trace
    ∧ (state.current_round ≤ state.max_rounds →
        ∀ x ∈ (tool_calling_loop g bp tm state ncalls).round_trace, x ≤ state.max_rounds) := by
  induction state, ncalls using tool_calling_loop.induct g bp tm with
  | case1 state ncalls hlt hno =>
    rw [tool_calling_loop]
    simp [hlt, hno]
  | case2 state ncalls hlt hno er e herr =>
    have herr' : (execute_tools_for_round tm state).error = some e := herr
    rw [tool_calling_loop]
    simp [hlt, has_tool_true_of_not_false hno, herr']
  | case3 state ncalls hlt hno er herr round hge =>
    have herr' : (execute_tools_for_round tm state).error = none := herr
    have hge' : state.max_rounds ≤ state.current_round + 1 := hge
    rw [tool_calling_loop]
    simp [hlt, has_tool_true_of_not_false hno, herr', if_pos hge']
    omega
  | case4 state ncalls hlt hno er herr msgs round hge resp ih =>
    have herr' : (execute_tools_for_round tm state).error = none := herr
    have hge' : ¬state.max_rounds ≤ state.current_round + 1 := hge
    obtain ⟨ihhead, ihchain, ihbound⟩ := ih
    have ihhead' :
        (tool_calling_loop g bp tm
          { messages := state.messages ++ (execute_tools_for_round tm state).tool_messages,
            current_round := state.current_round + 1, max_rounds := state.max_rounds,
            last_response := g.client ncalls } (ncalls + 1)).round_trace.head?
          = some (state.current_round + 1) := ihhead
    have ihchain' :
        List.Chain' (· ≤ ·) (tool_calling_loop g bp tm
          { messages := state.messages ++ (execute_tools_for_round tm state).tool_messages,
            current_round := state.current_round + 1, max_rounds := state.max_rounds,
            last_response := g.client ncalls } (ncalls + 1)).round_trace := ihchain
    have ihbound' : state.current_round + 1 ≤ state.max_rounds →
        ∀ x ∈ (tool_calling_loop g bp tm
          { messages := state.messages ++ (execute_tools_for_round tm state).tool_messages,
            current_round := state.current_round + 1, max_rounds := state.max_rounds,
            last_response := g.client ncalls } (ncalls + 1)).round_trace,
          x ≤ state.max_rounds := ihbound
    rw [tool_calling_loop]
    simp only [if_pos hlt, has_tool_true_of_not_false hno, Bool.true_eq_false, if_false, herr',
      if_neg hge', List.head?_cons, List.mem_cons]
    refine ⟨trivial, ?_, ?_⟩
    · refine List.Chain'.cons' ihchain' ?_
      intro y hy
      rw [ihhead'] at hy
      simp at hy
      omega
    · intro _ x hx
      rcases hx with h | h
      · omega
      · exact ihbound' (by omega) x h
  | case5 state ncalls hge =>
    rw [tool_calling_loop]
    simp [hge]


/-- When no dispatch ever raises, the loop makes exactly
`consecutive_tool_rounds g.client j m` further model calls, where `j` is the
entry round and the entry response is the `j`-th client response. -/
theorem tool_calling_loop_calls_length (g : AIGenerator) (bp : ApiParams) (tm : ToolManager)
    (hok : ∀ n a, (tm.execute_tool n a).isOk = true)
    (state : ToolCallingState) (ncalls : Nat) :
    state.last_response = g.client state.current_round →
    ncalls = state.current_round + 1 →
    (tool_calling_loop g bp tm state ncalls).calls.length
      = consecutive_tool_rounds g.client state.current_round state.max_rounds := by
  induction state, ncalls using tool_calling_loop.induct g bp tm with
  | case1 state ncalls hlt hno =>
    intro hresp _
    rw [tool_calling_loop, consecutive_tool_rounds]
    simp [hlt, hno, ← hresp]
  | case2 state ncalls hlt hno er e herr =>
    intro _ _
    have herr' : (execute_tools_for_round tm state).error = some e := herr
    have := execute_tools_error_none tm state hok
    rw [herr'] at this
    simp at this
  | case3 state ncalls hlt hno er herr round hge =>
    intro hresp _
    have herr' : (execute_tools_for_round tm state).error = none := herr
    have hge' : state.max_rounds ≤ state.current_round + 1 := hge
    rw [tool_calling_loop]
    simp only [if_pos hlt, has_tool_true_of_not_false hno, Bool.true_eq_false, if_false, herr',
      if_pos hge', List.length_cons, List.length_nil]
    rw [consecutive_tool_rounds]
    simp only [if_pos hlt, ← hresp, has_tool_true_of_not_false hno, if_pos trivial]
    rw [consecutive_tool_rounds]
    simp [show ¬(state.current_round + 1 < state.max_rounds) by omega]
  | case4 state ncalls hlt hno er herr msgs round hge resp ih =>
    intro hresp hn
    have herr' : (execute_tools_for_round tm state).error = none := herr
    have hge' : ¬state.max_rounds ≤ state.current_round + 1 := hge
    have ih' :
        (tool_calling_loop g bp tm
          { messages := state.messages ++ (execute_tools_for_round tm state).tool_messages,
            current_round := state.current_round + 1, max_rounds := state.max_rounds,
            last_response := g.client ncalls } (ncalls + 1)).calls.length
          = consecutive_tool_rounds g.client (state.current_round + 1) state.max_rounds := by
      exact ih (show g.client ncalls = g.client (state.current_round + 1) by rw [hn])
        (show ncalls + 1 = state.current_round + 1 + 1 by omega)
    rw [tool_calling_loop]
    simp only [if_pos hlt, has_tool_true_of_not_false hno, Bool.true_eq_false, if_false, herr',
      if_neg hge', List.length_cons]
    rw [consecutive_tool_rounds]
    simp only [if_pos hlt, ← hresp, has_tool_true_of_not_false hno, if_pos trivial]
    rw [← ih']
  | case5 state ncalls hge =>
    intro _ _
    rw [tool_calling_loop, consecutive_tool_rounds]
    simp [hge]


/-- Consing onto a list does not change a known last element. -/
theorem getLast?_cons_of_getLast? {α : Type} (a : α) {l : List α} {p : α}
    (h : l.getLast? = some p) : (a :: l).getLast? = some p := by
  cases l with
  | nil => simp at h
  | cons b bs => rw [List.getLast?_cons_cons]; exact h

/-- When no dispatch ever raises and the model requests tools for the whole
remaining budget, the loop's last model call is the forced final call: its
parameters carry no `tools` entry and no `tool_choice` entry. -/
theorem tool_calling_loop_last_call (g : AIGenerator) (bp : ApiParams) (tm : ToolManager)
    (hok : ∀ n a, (tm.execute_tool n a).isOk = true)
    (state : ToolCallingState) (ncalls : Nat) :
    state.last_response = g.client state.current_round →
    ncalls = state.current_round + 1 →
    consecutive_tool_rounds g.client state.current_round state.max_rounds
      = state.max_rounds - state.current_round →
    state.current_round < state.max_rounds →
    ∃ p, (tool_calling_loop g bp tm state ncalls).calls.getLast? = some p
      ∧ p.tools = none ∧ p.tool_choice = none := by
  induction state, ncalls using tool_calling_loop.induct g bp tm with
  | case1 state ncalls hlt hno =>
    intro hresp _ hctr _
    rw [consecutive_tool_rounds] at hctr
    simp [hlt, ← hresp, hno] at hctr
    omega
  | case2 state ncalls hlt hno er e herr =>
    intro _ _ _ _
    have herr' : (execute_tools_for_round tm state).error = some e := herr
    have := execute_tools_error_none tm state hok
    rw [herr'] at this
    simp at this
  | case3 state ncalls hlt hno er herr round hge =>
    intro _ _ _ _
    have herr' : (execute_tools_for_round tm state).error = none := herr
    have hge' : state.max_rounds ≤ state.current_round + 1 := hge
    rw [tool_calling_loop]
    simp only [if_pos hlt, has_tool_true_of_not_false hno, Bool.true_eq_false, if_false, herr',
      if_pos hge']
    exact ⟨_, rfl, rfl, rfl⟩
  | case4 state ncalls hlt hno er herr msgs round hge resp ih =>
    intro hresp hn hctr _
    have herr' : (execute_tools_for_round tm state).error = none := herr
    have hge' : ¬state.max_rounds ≤ state.current_round + 1 := hge
    have hctr' : consecutive_tool_rounds g.client (state.current_round + 1) state.max_rounds
        = state.max_rounds - (state.current_round + 1) := by
      rw [consecutive_tool_rounds] at hctr
      simp only [if_pos hlt, ← hresp, has_tool_true_of_not_false hno, if_pos trivial] at hctr
      omega
    obtain ⟨p, hp, hptools, hpchoice⟩ := ih
      (show g.client ncalls = g.client (state.current_round + 1) by rw [hn])
      (show ncalls + 1 = state.current_round + 1 + 1 by omega)
      hctr' (show state.current_round + 1 < state.max_rounds by omega)
    refine ⟨p, ?_, hptools, hpchoice⟩
    rw [tool_calling_loop]
    simp only [if_pos hlt, has_tool_true_of_not_false hno, Bool.true_eq_false, if_false, herr',
      if_neg hge']
    exact getLast?_cons_of_getLast? _ hp
  | case5 state ncalls hge =>
    intro _ _ _ hlt
    exact absurd hlt hge

/-- `consecutive_tool_rounds` from round `j` equals `min rounds_needed m - j`
when the model requests tools on exactly its first `rounds_needed` calls. -/
theorem consecutive_tool_rounds_eq_min (client : Nat → ModelResponse) (rn : Nat)
    (hneed : ∀ i, i < rn → has_tool_use_blocks (client i) = true)
    (hstop : has_tool_use_blocks (client rn) = false) :
    ∀ (j m : Nat), j ≤ rn → consecutive_tool_rounds client j m = min rn m - j := by
  intro j m
  induction j, m using consecutive_tool_rounds.induct client with
  | case1 j m hlt htool ih =>
    intro hj
    rcases Nat.lt_or_ge j rn with hjrn | hjrn
    · rw [consecutive_tool_rounds]
      simp only [if_pos hlt, htool, if_pos trivial]
      rw [ih (by omega)]
      omega
    · have hjeq : j = rn := by omega
      rw [hjeq] at htool
      rw [htool] at hstop
      simp at hstop
  | case2 j m hlt htool =>
    intro hj
    have hjrn : j = rn := by
      rcases Nat.lt_or_ge j rn with hjrn | hjrn
      · rw [hneed j hjrn] at htool
        simp at htool
      · omega
    rw [consecutive_tool_rounds]
    simp only [if_pos hlt, htool]
    simp
    omega
  | case3 j m hge =>
    intro hj
    rw [consecutive_tool_rounds]
    simp [hge]
    omega


/-- Dropping the tool-use blocks of a block list leaves its text payloads
unchanged. -/
theorem text_payloads_filter_not_tool (bs : List ContentBlock) :
    text_payloads (bs.filter fun b => !is_tool_use b) = text_payloads bs := by
  induction bs with
  | nil => rfl
  | cons b rest ih =>
    cases b with
    | text t => simp [text_payloads, List.filter, is_tool_use, List.filterMap_cons] at ih ⊢; exact ih
    | toolUse i n a => simp [text_payloads, List.filter, is_tool_use, List.filterMap_cons] at ih ⊢; exact ih

/-- Every model call issued by `generate_response` (the initial one and every
loop call) carries the system content built from the query's conversation
history. -/
theorem generate_response_calls_system (g : AIGenerator) (query : String)
    (hist : Option String) (ts : Option (List ToolSchema)) (otm : Option ToolManager) :
    ∀ p ∈ (generate_response g query hist ts otm).calls,
      p.system = build_system_content hist := by
  unfold generate_response
  cases otm with
  | none =>
    intro p hp
    split at hp <;>
      (simp at hp; rw [hp]; rfl)
  | some tm =>
    intro p hp
    by_cases hstop : (g.client 0).stop_reason = "tool_use"
    · simp only [hstop, if_pos trivial, if_true, List.mem_cons] at hp
      split at hp <;>
        (rcases hp with hp | hp
         · first
            | (rw [hp]; rfl)
         · have := tool_calling_loop_system g _ tm _ 1 p hp
           rw [this]; rfl)
    · simp only [hstop, if_neg, if_false] at hp
      split at hp <;>
        (simp at hp; rw [hp]; rfl)

end AIGenerator

open AIGenerator Example

/-- C3: text extraction returns the concatenation, in content-block order, of
the text payload of every text block, ignores tool-invocation blocks, and
returns the empty string (never an error) when no text blocks exist; blocks
`[text("A"), tool_use(...), text("B")]` yield `"AB"` and a tool-use-only
response yields `""`. -/
theorem text_extraction_concatenates_text_blocks :
    (∀ resp : ModelResponse,
      extract_text_from_response resp = String.join (text_payloads resp.content))
    ∧ (∀ resp : ModelResponse, text_payloads resp.content = [] →
      extract_text_from_response resp = "")
    ∧ (∀ (stop stop' : String) (bs : List ContentBlock),
      extract_text_from_response
          { stop_reason := stop', content := bs.filter fun b => !is_tool_use b }
        = extract_text_from_response { stop_reason := stop, content := bs })
    ∧ extract_text_from_response
      { stop_reason := "tool_use",
        content := [.text "A", .toolUse "toolu_1" "search_course_content" [("query", "x")],
          .text "B"] } = "AB"
    ∧ extract_text_from_response
      { stop_reason := "tool_use",
        content := [.toolUse "toolu_1" "search_course_content" [("query", "x")]] } = "" := by
  refine ⟨fun resp => extract_text_eq_join resp, ?_, ?_, by decide, by decide⟩
  · intro resp h
    rw [extract_text_eq_join, h]
    rfl
  · intro stop stop' bs
    rw [extract_text_eq_join, extract_text_eq_join]
    simp only [text_payloads_filter_not_tool]

/-- Witness for C3: the claim's hypotheses are satisfiable — a tool-use-only
response has no text payloads and extracts to the empty string. -/
theorem text_extraction_concatenates_text_blocks_witness :
    text_payloads [ContentBlock.toolUse "toolu_1" "search_course_content" [("query", "x")]] = []
    ∧ extract_text_from_response
      { stop_reason := "tool_use",
        content := [.toolUse "toolu_1" "search_course_content" [("query", "x")]] } = "" :=
  ⟨by decide,
   text_extraction_concatenates_text_blocks.2.1
     { stop_reason := "tool_use",
       content := [.toolUse "toolu_1" "search_course_content" [("query", "x")]] }
     (by decide)⟩

/-- C7: for every call to `generate_response`, the system content sent to the
model is the static system prompt followed by `"Previous conversation:\n"`
and the history verbatim when the history is non-empty, and the static system
prompt alone when the history is empty or absent. -/
theorem conversation_history_sent_verbatim (g : AIGenerator) (query : String)
    (hist : Option String) (ts : Option (List ToolSchema)) (otm : Option ToolManager) :
    (∀ h : String, hist = some h → h ≠ "" →
      ∀ p ∈ (generate_response g query hist ts otm).calls,
        p.system = SYSTEM_PROMPT ++ "\n\nPrevious conversation:\n" ++ h)
    ∧ ((hist = none ∨ hist = some "") →
      ∀ p ∈ (generate_response g query hist ts otm).calls,
        p.system = SYSTEM_PROMPT) := by
  constructor
  · intro h hh hne p hp
    rw [generate_response_calls_system g query hist ts otm p hp, hh, build_system_content]
    simp [hne]
  · intro hcase p hp
    rw [generate_response_calls_system g query hist ts otm p hp]
    rcases hcase with h | h <;> rw [h, build_system_content]
    simp

/-- Witness for C7: on a run with history `"hi"`, the single model call's
system content is the prompt plus the verbatim history section. -/
theorem conversation_history_sent_verbatim_witness :
    (generate_response (genK 0) "q" (some "hi") none none).calls.map ApiParams.system
      = [SYSTEM_PROMPT ++ "\n\nPrevious conversation:\n" ++ "hi"] := by
  have hcalls : (generate_response (genK 0) "q" (some "hi") none none).calls
      = [mk_base_params (genK 0) [{ role := "user", content := .text "q" }]
          (build_system_content (some "hi")) none none] := rfl
  have h := (conversation_history_sent_verbatim (genK 0) "q" (some "hi") none none).1
    "hi" rfl (by decide)
    (mk_base_params (genK 0) [{ role := "user", content := .text "q" }]
      (build_system_content (some "hi")) none none)
    (by rw [hcalls]; exact List.mem_singleton.mpr rfl)
  rw [hcalls, List.map_cons, List.map_nil, h]

/-- C8: `test_connection` returns a `(success, message)` pair for every
outcome of the underlying model call — `(true, success message)` on success,
`(false, message embedding the failure)` on a raised exception — and (being a
total function into pairs) never propagates an exception. -/
theorem test_connection_surfaces_outcome_as_pair (outcome : Except String ModelResponse) :
    (∀ resp, outcome = .ok resp →
      test_connection outcome = (true, "Connection successful"))
    ∧ (∀ e, outcome = .error e →
      (test_connection outcome).1 = false
      ∧ (test_connection outcome).2 = "Connection failed: " ++ e) := by
  cases outcome <;> simp [test_connection]

/-- Witness for C8: both outcomes, evaluated. -/
theorem test_connection_surfaces_outcome_as_pair_witness :
    ((test_connection (.error "socket timeout")).1 = false
      ∧ (test_connection (.error "socket timeout")).2 = "Connection failed: " ++ "socket timeout")
    ∧ test_connection (.ok (respText "ok")) = (true, "Connection successful") :=
  ⟨(test_connection_surfaces_outcome_as_pair (.error "socket timeout")).2 "socket timeout" rfl,
   (test_connection_surfaces_outcome_as_pair (.ok (respText "ok"))).1 (respText "ok") rfl⟩

/-- Flattening the two fixed message prefixes of the error answer. -/
theorem error_answer_flatten (s : String) :
    "I encountered an error while searching: " ++ ("Tool execution failed: " ++ s)
      = "I encountered an error while searching: Tool execution failed: " ++ s := by
  rw [← String.append_assoc]
  congr 1

/-- C2 is false as stated: on a dispatch raising with message `"boom"`, the
returned answer is not `"I encountered an error while searching: boom"` — the
loop inserts the dispatcher's own `"Tool execution failed: "` prefix. -/
theorem tool_error_message_counterexample :
    Example.tmBoom.execute_tool "search_course_content" [("query", "x")] = .error "boom"
    ∧ (generate_response (genK 5) "q" none (some [schema]) (some Example.tmBoom)).answer
        = "I encountered an error while searching: Tool execution failed: boom"
    ∧ (generate_response (genK 5) "q" none (some [schema]) (some Example.tmBoom)).answer
        ≠ "I encountered an error while searching: boom" := by
  have h : (generate_response (genK 5) "q" none (some [schema]) (some Example.tmBoom)).answer
      = "I encountered an error while searching: " ++ ("Tool execution failed: " ++ "boom") := by
    simp [generate_response, genK, respTool, tools_truthy, handle_tool_execution,
      init_tool_calling_state, tool_calling_loop, has_tool_use_blocks,
      execute_tools_for_round, run_tool_blocks, Example.tmBoom, handle_tool_error,
      mk_base_params, build_system_content]
  refine ⟨rfl, ?_, ?_⟩
  · rw [h]; decide
  · rw [h]; decide

/-- C2 (amended): when a dispatch of the current round raises with message
`m` (all earlier dispatches of the round succeeding), the loop aborts with
answer exactly `"I encountered an error while searching: Tool execution
failed: <m>"`, makes no further model calls, and does not dispatch the
remaining tool-invocation blocks of that round. -/
theorem tool_error_aborts_loop_with_wrapped_message (g : AIGenerator) (bp : ApiParams)
    (tm : ToolManager) (msgs : List Message) (j m ncalls : Nat) (resp : ModelResponse)
    (L₁ L₂ : List ContentBlock) (id name : String) (input : List (String × String))
    (msg : String)
    (hj : j < m)
    (hcontent : resp.content = L₁ ++ ContentBlock.toolUse id name input :: L₂)
    (hprev : ∀ n a, (n, a) ∈ tool_dispatches L₁ → (tm.execute_tool n a).isOk = true)
    (hfail : tm.execute_tool name input = .error msg) :
    (tool_calling_loop g bp tm ⟨msgs, j, m, resp⟩ ncalls).answer
      = "I encountered an error while searching: Tool execution failed: " ++ msg
    ∧ (tool_calling_loop g bp tm ⟨msgs, j, m, resp⟩ ncalls).calls = []
    ∧ (tool_calling_loop g bp tm ⟨msgs, j, m, resp⟩ ncalls).dispatches
      = tool_dispatches L₁ ++ [(name, input)] := by
  have htool : has_tool_use_blocks resp = true := by
    refine has_tool_use_of_mem id name input ?_
    rw [hcontent]
    exact List.mem_append_right _ (List.mem_cons_self _ _)
  have hrun := run_tool_blocks_error_at tm L₁ id name input msg L₂ hprev hfail
  have hexec : execute_tools_for_round tm ⟨msgs, j, m, resp⟩
      = { error := some ("Tool execution failed: " ++ msg), tool_messages := [],
          dispatched := tool_dispatches L₁ ++ [(name, input)] } := by
    unfold execute_tools_for_round
    rw [show (⟨msgs, j, m, resp⟩ : ToolCallingState).last_response.content
      = L₁ ++ ContentBlock.toolUse id name input :: L₂ from hcontent, hrun]
  rw [tool_calling_loop]
  simp only [hj, if_pos trivial, htool, Bool.true_eq_false, if_false, hexec]
  exact ⟨error_answer_flatten msg, trivial, trivial⟩

/-- Witness for C2 (amended): a concrete one-block round whose dispatch
raises `"boom"`. -/
theorem tool_error_aborts_loop_with_wrapped_message_witness :
    (tool_calling_loop (genK 5) pInit Example.tmBoom
        ⟨[{ role := "user", content := .text "q" }], 0, 2, respTool⟩ 1).answer
      = "I encountered an error while searching: Tool execution failed: " ++ "boom"
    ∧ (tool_calling_loop (genK 5) pInit Example.tmBoom
        ⟨[{ role := "user", content := .text "q" }], 0, 2, respTool⟩ 1).calls = []
    ∧ (tool_calling_loop (genK 5) pInit Example.tmBoom
        ⟨[{ role := "user", content := .text "q" }], 0, 2, respTool⟩ 1).dispatches
      = tool_dispatches [] ++ [("search_course_content", [("query", "x")])] :=
  tool_error_aborts_loop_with_wrapped_message (genK 5) pInit Example.tmBoom
    [{ role := "user", content := .text "q" }] 0 2 1 respTool
    [] [] "toolu_1" "search_course_content" [("query", "x")] "boom"
    (by decide) rfl (by intro n a h; simp [tool_dispatches] at h) rfl

/-- C9: if a dispatch of the current round raises, the loop returns with the
conversation history exactly as it was at the round's entry — neither the
round's assistant turn nor any earlier successful dispatch's tool result is
appended. -/
theorem failed_round_leaves_history_unchanged (g : AIGenerator) (bp : ApiParams)
    (tm : ToolManager) (msgs : List Message) (j m ncalls : Nat) (resp : ModelResponse)
    (e : String)
    (hj : j < m)
    (htool : has_tool_use_blocks resp = true)
    (herr : (execute_tools_for_round tm ⟨msgs, j, m, resp⟩).error = some e) :
    (tool_calling_loop g bp tm ⟨msgs, j, m, resp⟩ ncalls).messages = msgs := by
  rw [tool_calling_loop]
  simp only [hj, if_pos trivial, htool, Bool.true_eq_false, if_false, herr]

/-- Witness for C9: the failing concrete round of the C2 witness leaves the
history at its single user message. -/
theorem failed_round_leaves_history_unchanged_witness :
    (tool_calling_loop (genK 5) pInit Example.tmBoom
        ⟨[{ role := "user", content := .text "q" }], 0, 2, respTool⟩ 1).messages
      = [{ role := "user", content := .text "q" }] :=
  failed_round_leaves_history_unchanged (genK 5) pInit Example.tmBoom
    [{ role := "user", content := .text "q" }] 0 2 1 respTool
    "Tool execution failed: boom" (by decide) (by decide) rfl

/-- C5: on a successfully completed round, the user turn appended carries
exactly one tool result per tool-invocation block of the preceding assistant
turn, matched by identifier, in block order. -/
theorem tool_results_match_invocations (tm : ToolManager) (state : ToolCallingState)
    (herr : (execute_tools_for_round tm state).error = none)
    (htool : has_tool_use_blocks state.last_response = true) :
    ∃ results : List ToolResult,
      (execute_tools_for_round tm state).tool_messages =
        [{ role := "assistant", content := .blocks state.last_response.content },
         { role := "user", content := .toolResults results }]
      ∧ results.map ToolResult.tool_use_id = tool_use_ids state.last_response.content
      ∧ results.length = (state.last_response.content.filter is_tool_use).length := by
  cases hrun : run_tool_blocks tm state.last_response.content with
  | error p =>
    rw [show (execute_tools_for_round tm state).error
      = some p.1 from by unfold execute_tools_for_round; rw [hrun]] at herr
    simp at herr
  | ok p =>
    obtain ⟨results, ds⟩ := p
    obtain ⟨hids, _⟩ := run_tool_blocks_ok_spec tm state.last_response.content results ds hrun
    have hne : results ≠ [] := by
      intro h0
      refine tool_use_ids_ne_nil_of_has state.last_response htool ?_
      rw [← hids, h0]
      rfl
    refine ⟨results, ?_, hids, ?_⟩
    · unfold execute_tools_for_round
      rw [hrun]
      simp [List.isEmpty_eq_true, hne]
    · have : (tool_use_ids state.last_response.content).length
          = (state.last_response.content.filter is_tool_use).length := by
        unfold tool_use_ids
        induction state.last_response.content with
        | nil => rfl
        | cons b rest ih =>
          cases b with
          | text t => simpa [List.filterMap_cons, List.filter, is_tool_use] using ih
          | toolUse i n a => simpa [List.filterMap_cons, List.filter, is_tool_use] using ih
      rw [← this, ← hids, List.length_map]

/-- Witness for C5: a two-invocation round against the always-succeeding
manager yields a user turn with the two identifier-matched results. -/
theorem tool_results_match_invocations_witness :
    (execute_tools_for_round Example.tmOk stateW).tool_messages
      = [{ role := "assistant", content := .blocks respTwoTools.content },
         { role := "user", content := .toolResults resultsW }]
    ∧ resultsW.map ToolResult.tool_use_id = tool_use_ids respTwoTools.content := by
  obtain ⟨results, h1, h2, _⟩ :=
    tool_results_match_invocations Example.tmOk stateW (by decide) (by decide)
  have hcalc : (execute_tools_for_round Example.tmOk stateW).tool_messages
      = [{ role := "assistant", content := .blocks respTwoTools.content },
         { role := "user", content := .toolResults resultsW }] := by decide
  refine ⟨hcalc, ?_⟩
  rw [hcalc] at h1
  simp only [List.cons.injEq, Message.mk.injEq, MessageContent.toolResults.injEq,
    and_true, true_and] at h1
  rw [h1.2]
  exact h2

/-- C6: within one orchestration run the round counter is monotonically
non-decreasing across the loop and never exceeds the configured maximum:
every value it takes is at most `max_rounds`. -/
theorem round_counter_monotone_and_bounded (g : AIGenerator) (resp : ModelResponse)
    (bp : ApiParams) (tm : ToolManager) (ncalls m : Nat) :
    List.Chain' (· ≤ ·) (handle_tool_execution g resp bp tm ncalls m).round_trace
    ∧ ∀ x ∈ (handle_tool_execution g resp bp tm ncalls m).round_trace, x ≤ m := by
  have h := tool_calling_loop_trace g bp tm (init_tool_calling_state resp bp m) ncalls
  exact ⟨h.2.1, h.2.2 (Nat.zero_le m)⟩

/-- Witness for C6: on a concrete two-round run the trace is a chain and its
member `2` is within the bound. -/
theorem round_counter_monotone_and_bounded_witness :
    List.Chain' (· ≤ ·)
      (handle_tool_execution (genK 5) respTool pInit Example.tmOk 1 2).round_trace
    ∧ (2 : Nat) ≤ 2 := by
  have h := round_counter_monotone_and_bounded (genK 5) respTool pInit Example.tmOk 1 2
  refine ⟨h.1, h.2 2 ?_⟩
  show (2 : Nat) ∈ (handle_tool_execution (genK 5) respTool pInit Example.tmOk 1 2).round_trace
  simp [handle_tool_execution, init_tool_calling_state, tool_calling_loop,
    has_tool_use_blocks, respTool, execute_tools_for_round, run_tool_blocks, Example.tmOk,
    genK, make_intermediate_params, make_final_params, mk_base_params]

/-- C4: when the first model response contains no tool-invocation blocks,
`generate_response` makes exactly one model call, dispatches no tools, and
returns the concatenation of that response's text blocks. -/
theorem direct_answer_single_model_call (g : AIGenerator) (query : String)
    (hist : Option String) (ts : Option (List ToolSchema)) (otm : Option ToolManager)
    (h : has_tool_use_blocks (g.client 0) = false) :
    (generate_response g query hist ts otm).calls.length = 1
    ∧ (generate_response g query hist ts otm).dispatches = []
    ∧ (generate_response g query hist ts otm).answer
      = String.join (text_payloads (g.client 0).content) := by
  unfold generate_response
  cases otm with
  | none => split <;> simp [extract_text_eq_join]
  | some tm =>
    have hloop : ∀ bp : ApiParams, tool_calling_loop g bp tm
        (init_tool_calling_state (g.client 0) bp 2) 1
        = { answer := extract_text_from_response (g.client 0), calls := [], dispatches := [],
            round_trace := [0], messages := bp.messages, budget := none } := by
      intro bp
      rw [tool_calling_loop]
      simp [init_tool_calling_state, h]
    by_cases hstop : (g.client 0).stop_reason = "tool_use" <;>
      by_cases ht : tools_truthy ts <;>
        simp [hstop, ht, handle_tool_execution, hloop, extract_text_eq_join]

/-- Witness for C4: the no-tool first response costs one call and returns its
text. -/
theorem direct_answer_single_model_call_witness :
    (generate_response (genK 0) "What is the capital of France?" none
        (some [schema]) (some Example.tmOk)).calls.length = 1
    ∧ (generate_response (genK 0) "What is the capital of France?" none
        (some [schema]) (some Example.tmOk)).dispatches = []
    ∧ (generate_response (genK 0) "What is the capital of France?" none
        (some [schema]) (some Example.tmOk)).answer
      = String.join (text_payloads ((genK 0).client 0).content) :=
  direct_answer_single_model_call (genK 0) "What is the capital of France?" none
    (some [schema]) (some Example.tmOk) (by decide)

/-- C10: every orchestration run entered through `generate_response` uses the
hard-coded default budget of 2 rounds; the configurable `MAX_TOOL_ROUNDS` is
never passed to the orchestrator, so a configuration carrying any other value
does not change the budget. -/
theorem fixed_round_budget_two (g : AIGenerator) (query : String) (hist : Option String)
    (ts : Option (List ToolSchema)) (tm : ToolManager) (cfg : Config) :
    ((g.client 0).stop_reason = "tool_use" →
      (generate_response g query hist ts (some tm)).budget = some 2)
    ∧ ((g.client 0).stop_reason ≠ "tool_use" →
      (generate_response g query hist ts (some tm)).budget = none)
    ∧ (∀ x ∈ (generate_response g query hist ts (some tm)).round_trace, x ≤ 2)
    ∧ (cfg.MAX_TOOL_ROUNDS ≠ 2 →
      (generate_response g query hist ts (some tm)).budget ≠ some cfg.MAX_TOOL_ROUNDS) := by
  have hb : (generate_response g query hist ts (some tm)).budget
      = if (g.client 0).stop_reason = "tool_use" then some 2 else none := by
    unfold generate_response
    by_cases hstop : (g.client 0).stop_reason = "tool_use" <;>
      by_cases ht : tools_truthy ts <;>
        simp [hstop, ht, handle_tool_execution]
  refine ⟨?_, ?_, ?_, ?_⟩
  · intro hstop
    rw [hb, if_pos hstop]
  · intro hstop
    rw [hb, if_neg hstop]
  · unfold generate_response
    by_cases hstop : (g.client 0).stop_reason = "tool_use" <;>
      by_cases ht : tools_truthy ts <;>
        simp [hstop, ht, handle_tool_execution] <;>
          exact fun x hx =>
            (tool_calling_loop_trace g _ tm (init_tool_calling_state (g.client 0) _ 2)
              1).2.2 (Nat.zero_le 2) x hx
  · intro hcfg hsome
    rw [hb] at hsome
    by_cases hstop : (g.client 0).stop_reason = "tool_use"
    · rw [if_pos hstop] at hsome
      injection hsome with h2
      exact hcfg h2.symm
    · rw [if_neg hstop] at hsome
      exact Option.noConfusion hsome

/-- Witness for C10: a run that enters the orchestrator has budget 2, and a
configuration with `MAX_TOOL_ROUNDS = 5` does not change it. -/
theorem fixed_round_budget_two_witness :
    (generate_response (genK 5) "q" none (some [schema]) (some Example.tmOk)).budget = some 2
    ∧ (generate_response (genK 5) "q" none (some [schema]) (some Example.tmOk)).budget
      ≠ some (Config.mk 5).MAX_TOOL_ROUNDS := by
  have h := fixed_round_budget_two (genK 5) "q" none (some [schema]) Example.tmOk ⟨5⟩
  exact ⟨h.1 (by decide), h.2.2.2 (by decide)⟩

/-- C1: when the first model response requests tool use and no dispatch
raises, the run with budget `max_rounds` makes exactly
`min (rounds_needed) (max_rounds) + 1` model calls in total (the front door's
initial call plus the loop's calls), and when the budget is exhausted the
final call's parameters carry no tool schemas and no tool choice. -/
theorem model_call_count_and_forced_final_call (g : AIGenerator) (bp : ApiParams)
    (tm : ToolManager) (m rn : Nat)
    (hok : ∀ n a, (tm.execute_tool n a).isOk = true)
    (_hfirst : has_tool_use_blocks (g.client 0) = true)
    (hneed : ∀ i, i < rn → has_tool_use_blocks (g.client i) = true)
    (hstop : has_tool_use_blocks (g.client rn) = false) :
    1 + (handle_tool_execution g (g.client 0) bp tm 1 m).calls.length = min rn m + 1
    ∧ (m ≤ rn → 0 < m →
      ∃ p, (handle_tool_execution g (g.client 0) bp tm 1 m).calls.getLast? = some p
        ∧ p.tools = none ∧ p.tool_choice = none) := by
  have hctr := consecutive_tool_rounds_eq_min g.client rn hneed hstop 0 m (Nat.zero_le rn)
  have hlen := tool_calling_loop_calls_length g bp tm hok
    (init_tool_calling_state (g.client 0) bp m) 1 rfl rfl
  constructor
  · rw [show (handle_tool_execution g (g.client 0) bp tm 1 m).calls.length
      = consecutive_tool_rounds g.client 0 m from hlen, hctr]
    omega
  · intro hm hpos
    have hctr' : consecutive_tool_rounds g.client 0 m = m - 0 := by
      rw [hctr]
      omega
    exact tool_calling_loop_last_call g bp tm hok
      (init_tool_calling_state (g.client 0) bp m) 1 rfl rfl hctr' hpos

/-- Witness for C1: a model that would request tools five times, run with
budget 2 and a succeeding manager: 3 calls in total and a final call without
tools. -/
theorem model_call_count_and_forced_final_call_witness :
    1 + (handle_tool_execution (genK 5) ((genK 5).client 0) pInit Example.tmOk 1 2).calls.length
      = min 5 2 + 1
    ∧ ((handle_tool_execution (genK 5) ((genK 5).client 0) pInit
        Example.tmOk 1 2).calls.getLast?).map ApiParams.tools = some none
    ∧ ((handle_tool_execution (genK 5) ((genK 5).client 0) pInit
        Example.tmOk 1 2).calls.getLast?).map ApiParams.tool_choice = some none := by
  have h := model_call_count_and_forced_final_call (genK 5) pInit Example.tmOk 2 5
    (fun n a => rfl) (by decide)
    (fun i hi => by simp [genK, hi, respTool, has_tool_use_blocks])
    (by decide)
  obtain ⟨p, hp, hptools, hpchoice⟩ := h.2 (by decide) (by decide)
  refine ⟨h.1, ?_, ?_⟩
  · rw [hp]
    simp [hptools]
  · rw [hp]
    simp [hpchoice]
